import Mathlib

/-!
# Verification of the prism-insight dashboard components

Shallow embedding of the two source files of this repository:

* `components/language-provider.tsx` — the localization provider
  (`LanguageProvider`, `setLanguage`, `t`, `useLanguage`, the static
  `translations` dictionary);
* the trading-history page (`TradingHistoryPage`) — derived aggregates
  (`bestTrade`, `worstTrade`, `sectorPerformance`, `sortedSectors`,
  `periodPerformance`), the target-achievement cell, and the conditional
  rendering branches.

JavaScript numbers are modelled as exact rationals (`ℚ`); JavaScript
truthiness on strings/numbers is modelled explicitly (`""` and `0` are
falsy); absent object fields are `Option`.
-/

namespace PrismInsight

/-- The `Language` union type `"ko" | "en"` of `language-provider.tsx`. -/
inductive Language where
  | ko
  | en
deriving DecidableEq

/-- The string literal a `Language` value stands for (the value written to
and read from `localStorage`). -/
def Language.toStr : Language → String
  | .ko => "ko"
  | .en => "en"

/-- The static `translations` dictionary of `language-provider.tsx`, embedded
verbatim as one association list per locale (object-literal key order
preserved). -/
def translations : Language → List (String × String)
  | .ko =>
    [("header.season", "Season 2"),
     ("header.openSource", "Open Source"),
     ("header.tooltip.openSource", "AI 기반 주식 분석 및 매매 시스템 • MIT License"),
     ("header.startDate", "시작: 2025.09.29"),
     ("header.updated", "업데이트"),
     ("header.realtimeUpdate", "실시간 업데이트"),
     ("header.dashboard", "대시보드"),
     ("header.aiDecisions", "AI 보유 분석"),
     ("header.trading", "거래 내역"),
     ("header.watchlist", "관심 종목"),
     ("header.tooltip.github", "GitHub 저장소"),
     ("header.tooltip.telegram", "텔레그램 채널"),
     ("header.tooltip.theme", "테마 전환"),
     ("loading.text", "데이터 로딩 중..."),
     ("table.realPortfolio", "실전투자 포트폴리오"),
     ("table.simulator", "프리즘 시뮬레이터"),
     ("table.stock", "종목"),
     ("table.quantity", "수량"),
     ("table.avgPrice", "평균단가"),
     ("table.currentPrice", "현재가"),
     ("table.profitRate", "수익률"),
     ("table.profitAmount", "평가손익"),
     ("table.totalValue", "평가금액"),
     ("metrics.totalReturn", "누적 수익률"),
     ("metrics.winRate", "승률"),
     ("metrics.avgReturn", "평균 수익률"),
     ("metrics.avgHoldingDays", "평균 보유일"),
     ("metrics.totalTrades", "총 거래"),
     ("metrics.wins", "승"),
     ("metrics.losses", "패"),
     ("common.won", "원"),
     ("common.krw", "₩"),
     ("common.percent", "%"),
     ("common.days", "일"),
     ("common.trades", "건")]
  | .en =>
    [("header.season", "Season 2"),
     ("header.openSource", "Open Source"),
     ("header.tooltip.openSource", "AI-powered Stock Analysis & Trading System • MIT License"),
     ("header.startDate", "Start: 2025.09.29"),
     ("header.updated", "Updated"),
     ("header.realtimeUpdate", "Real-time Update"),
     ("header.dashboard", "Dashboard"),
     ("header.aiDecisions", "AI Holdings"),
     ("header.trading", "Trades"),
     ("header.watchlist", "Watchlist"),
     ("header.tooltip.github", "GitHub Repository"),
     ("header.tooltip.telegram", "Telegram Channel"),
     ("header.tooltip.theme", "Toggle Theme"),
     ("loading.text", "Loading data..."),
     ("table.realPortfolio", "Real Trading Portfolio"),
     ("table.simulator", "Prism Simulator"),
     ("table.stock", "Stock"),
     ("table.quantity", "Qty"),
     ("table.avgPrice", "Avg Price"),
     ("table.currentPrice", "Current"),
     ("table.profitRate", "Return"),
     ("table.profitAmount", "P&L"),
     ("table.totalValue", "Value"),
     ("metrics.totalReturn", "Total Return"),
     ("metrics.winRate", "Win Rate"),
     ("metrics.avgReturn", "Avg Return"),
     ("metrics.avgHoldingDays", "Avg Days"),
     ("metrics.totalTrades", "Total Trades"),
     ("metrics.wins", "Wins"),
     ("metrics.losses", "Losses"),
     ("common.won", "KRW"),
     ("common.krw", "₩"),
     ("common.percent", "%"),
     ("common.days", "d"),
     ("common.trades", "trades")]

/-- The translation function `t`:
`(key) => translations[language][key] || key`.  A missing key yields
`undefined`, and `||` then returns the key; `||` would also return the key
for an empty-string value, which the embedding reflects. -/
def t (language : Language) (key : String) : String :=
  match (translations language).lookup key with
  | some v => if v = "" then key else v
  | none => key

/-- The in-memory state plus the one persisted `localStorage` entry
(key `"language"`) that `LanguageProvider` touches.  `storage = none`
models an absent `localStorage` entry. -/
structure ProviderState where
  language : Language
  storage : Option String

/-- Embeds `setLanguage` of `LanguageProvider`: updates the state and writes the
choice to `localStorage.setItem("language", lang)`. -/
def setLanguage (st : ProviderState) (lang : Language) : ProviderState :=
  { st with language := lang, storage := some lang.toStr }

/-- A fresh `LanguageProvider` mount: `useState<Language>("ko")`, then the
mount effect reads `localStorage.getItem("language")` and adopts the stored
value only when it is `"ko"` or `"en"`. -/
def initProvider (storage : Option String) : ProviderState :=
  let language :=
    match storage with
    | some s => if s = "ko" then Language.ko else if s = "en" then Language.en else Language.ko
    | none => Language.ko
  { language := language, storage := storage }

/-- The `LanguageContextType` value provided through the React context. -/
structure LanguageContextType where
  language : Language
  setLanguage : Language → ProviderState
  t : String → String

/-- Embeds `useLanguage`: reads the context; outside a `LanguageProvider` the
context is `undefined` (`none`) and the hook throws
`Error("useLanguage must be used within a LanguageProvider")`, modelled as
`Except.error` of the message. -/
def useLanguage (ctx : Option LanguageContextType) : Except String LanguageContextType :=
  match ctx with
  | none => Except.error "useLanguage must be used within a LanguageProvider"
  | some c => Except.ok c

/-- Modelled from the spec: the nested trading-scenario record of §3
(the type declaration in `@/types/dashboard` is not under `src/`).  Only
the fields the page reads are kept. -/
structure Scenario where
  sector : Option String
  investment_period : Option String
  target_price : Option ℚ
  rationale : Option String
deriving DecidableEq

/-- Modelled from the spec: the `Trade` record of §3 (the type declaration
in `@/types/dashboard` is not under `src/`).  The fields are exactly those
the page reads; numbers are exact rationals. -/
structure Trade where
  id : ℕ
  ticker : String
  company_name : String
  buy_price : ℚ
  sell_price : ℚ
  buy_date : String
  sell_date : String
  holding_days : ℕ
  profit_rate : ℚ
  scenario : Option Scenario
deriving DecidableEq

/-- The bare `{ profit_rate: 0 }` object used as the `reduce` seed when
`history[0]` is `undefined`; the JavaScript object has only the
`profit_rate` field, and only that field is ever read on it. -/
def placeholderTrade : Trade :=
  { id := 0, ticker := "", company_name := "", buy_price := 0, sell_price := 0,
    buy_date := "", sell_date := "", holding_days := 0, profit_rate := 0,
    scenario := none }

/-- Embeds `bestTrade`: `history.reduce((best, trade) =>
(trade.profit_rate > best.profit_rate) ? trade : best, history[0] || \x7b profit_rate: 0 \x7d)`. -/
def bestStep (best trade : Trade) : Trade :=
  if trade.profit_rate > best.profit_rate then trade else best

def bestTrade (history : List Trade) : Trade :=
  history.foldl bestStep (history.head?.getD placeholderTrade)

/-- Embeds `worstTrade`: `history.reduce((worst, trade) =>
(trade.profit_rate < worst.profit_rate) ? trade : worst, history[0] || \x7b profit_rate: 0 \x7d)`. -/
def worstStep (worst trade : Trade) : Trade :=
  if trade.profit_rate < worst.profit_rate then trade else worst

def worstTrade (history : List Trade) : Trade :=
  history.foldl worstStep (history.head?.getD placeholderTrade)

/-- One accumulator entry `\x7b total, count, avgProfit \x7d` of the
`sectorPerformance` / `periodPerformance` reduces. -/
structure GroupStats where
  total : ℚ
  count : ℕ
  avgProfit : ℚ
deriving DecidableEq

/-- The grouping key of `sectorPerformance`:
`trade.scenario?.sector || t("common.other")` — optional chaining plus `||`,
so an absent scenario, an absent sector and an empty-string sector all fall
back to the translated label. -/
def sectorLabel (lang : Language) (trade : Trade) : String :=
  match trade.scenario with
  | none => t lang "common.other"
  | some sc =>
    match sc.sector with
    | none => t lang "common.other"
    | some s => if s = "" then t lang "common.other" else s

/-- The grouping key of `periodPerformance`:
`trade.scenario?.investment_period || t("common.unclassified")`. -/
def periodLabel (lang : Language) (trade : Trade) : String :=
  match trade.scenario with
  | none => t lang "common.unclassified"
  | some sc =>
    match sc.investment_period with
    | none => t lang "common.unclassified"
    | some s => if s = "" then t lang "common.unclassified" else s

/-- Embeds `if (!acc[key]) acc[key] = \x7b total: 0, count: 0, avgProfit: 0 \x7d`:
JavaScript string-keyed objects keep insertion order, modelled as an
association list extended at the back. -/
def ensureKey (acc : List (String × GroupStats)) (key : String) :
    List (String × GroupStats) :=
  if (acc.lookup key).isSome then acc
  else acc ++ [(key, { total := 0, count := 0, avgProfit := 0 })]

/-- The three update statements of the reduce body:
`acc[key].total += trade.profit_rate; acc[key].count += 1;
acc[key].avgProfit = acc[key].total / acc[key].count`. -/
def bumpKey (acc : List (String × GroupStats)) (key : String) (pr : ℚ) :
    List (String × GroupStats) :=
  acc.map fun p =>
    if p.1 = key then
      (p.1, { total := p.2.total + pr, count := p.2.count + 1,
              avgProfit := (p.2.total + pr) / (p.2.count + 1) })
    else p

/-- One iteration of the grouping reduce, with the grouping key given by
`labelOf`. -/
def groupStep (labelOf : Trade → String) (acc : List (String × GroupStats))
    (trade : Trade) : List (String × GroupStats) :=
  let key := labelOf trade
  bumpKey (ensureKey acc key) key trade.profit_rate

/-- The shared shape of the two reduces of the page (their bodies are
identical up to the grouping key). -/
def groupPerformance (labelOf : Trade → String) (history : List Trade) :
    List (String × GroupStats) :=
  history.foldl (groupStep labelOf) []

/-- Embeds `sectorPerformance`: the reduce grouping by `scenario.sector` with the
`t("common.other")` fallback. -/
def sectorPerformance (lang : Language) (history : List Trade) :
    List (String × GroupStats) :=
  groupPerformance (sectorLabel lang) history

/-- Embeds `periodPerformance`: the reduce grouping by `scenario.investment_period`
with the `t("common.unclassified")` fallback. -/
def periodPerformance (lang : Language) (history : List Trade) :
    List (String × GroupStats) :=
  groupPerformance (periodLabel lang) history

/-- The comparator order of `.sort(([, a], [, b]) => b.avgProfit - a.avgProfit)`:
entry `x` may precede entry `y` when `y.avgProfit ≤ x.avgProfit`
(descending by running average). -/
def byAvgProfitDesc (x y : String × GroupStats) : Prop :=
  y.2.avgProfit ≤ x.2.avgProfit

instance : DecidableRel byAvgProfitDesc := fun x y =>
  inferInstanceAs (Decidable (y.2.avgProfit ≤ x.2.avgProfit))

instance : IsTotal (String × GroupStats) byAvgProfitDesc :=
  ⟨fun x y => le_total y.2.avgProfit x.2.avgProfit⟩

instance : IsTrans (String × GroupStats) byAvgProfitDesc :=
  ⟨fun _ _ _ h₁ h₂ => le_trans h₂ h₁⟩

/-- Embeds `sortedSectors`: `Object.entries(sectorPerformance).sort(([, a], [, b]) =>
b.avgProfit - a.avgProfit).slice(0, 3)` — a stable sort descending by
`avgProfit`, truncated to 3 entries. -/
def sortedSectors (lang : Language) (history : List Trade) :
    List (String × GroupStats) :=
  ((sectorPerformance lang history).insertionSort byAvgProfitDesc).take 3

/-- The target-achievement cell:
`trade.scenario?.target_price ? ((trade.sell_price / trade.scenario.target_price) * 100).toFixed(0) + "%" : "-"`.
The condition is JavaScript truthiness, so a target price of `0` takes the
`"-"` branch; `toFixed(0)` rounds to the nearest integer, ties toward `+∞`,
which is `round` on `ℚ`. -/
def targetAchievementText (trade : Trade) : String :=
  match trade.scenario with
  | none => "-"
  | some sc =>
    match sc.target_price with
    | none => "-"
    | some tp =>
      if tp = 0 then "-"
      else toString (round (trade.sell_price / tp * 100)) ++ "%"

/-- The `summary.trading` snapshot destructured at the top of the page. -/
structure SummaryTrading where
  total_trades : ℕ
  win_rate : ℚ
  avg_profit_rate : ℚ
  avg_holding_days : ℚ
deriving DecidableEq

/-- The `Summary` prop of `TradingHistoryPage`. -/
structure Summary where
  trading : SummaryTrading
deriving DecidableEq

/-- The conditional parts of the page's JSX output: which blocks render and
what the per-trade listing contains. -/
structure RenderedPage where
  showsBestWorstCards : Bool
  showsSectorPeriodCards : Bool
  sectorTop3 : List (String × GroupStats)
  periodRows : List (String × GroupStats)
  tradeEntries : List String
  showsEmptyState : Bool
  emptyStateMessage : Option String
deriving DecidableEq

/-- The render pass of `TradingHistoryPage`: the best/worst cards and the
sector/period cards are guarded by `history.length > 0`, the detail listing
maps over `history` (here projected to the target-achievement cell of each
entry), and the empty-state card is guarded by `history.length === 0`. -/
def renderTradingHistoryPage (lang : Language) (history : List Trade)
    (_summary : Summary) : RenderedPage :=
  { showsBestWorstCards := decide (history.length > 0)
    showsSectorPeriodCards := decide (history.length > 0)
    sectorTop3 := sortedSectors lang history
    periodRows := periodPerformance lang history
    tradeEntries := history.map targetAchievementText
    showsEmptyState := decide (history.length = 0)
    emptyStateMessage :=
      if history.length = 0 then some "아직 거래 내역이 없습니다." else none }

/-- The trades of `history` whose grouping key is `key`, in order. -/
def groupMembers (labelOf : Trade → String) (key : String)
    (history : List Trade) : List Trade :=
  history.filter fun trade => labelOf trade = key

/-- Sum of the profit rates of the trades grouped under `key`. -/
def groupSum (labelOf : Trade → String) (key : String)
    (history : List Trade) : ℚ :=
  ((groupMembers labelOf key history).map Trade.profit_rate).sum

/-- Number of trades grouped under `key`. -/
def groupCount (labelOf : Trade → String) (key : String)
    (history : List Trade) : ℕ :=
  (groupMembers labelOf key history).length

/-- Sum of the `count` fields over all accumulator entries. -/
def sumCounts (acc : List (String × GroupStats)) : ℕ :=
  (acc.map fun p => p.2.count).sum

/-- Count of a group read through `lookup` (`0` when the key is absent). -/
def lookCount (acc : List (String × GroupStats)) (key : String) : ℕ :=
  match acc.lookup key with
  | some s => s.count
  | none => 0

/-- Total of a group read through `lookup` (`0` when the key is absent). -/
def lookTotal (acc : List (String × GroupStats)) (key : String) : ℚ :=
  match acc.lookup key with
  | some s => s.total
  | none => 0

/-! ## Concrete sample inputs (used by witnesses and counterexamples) -/

/-- A scenario with a sector, a period and a nonzero target price. -/
def exScenario1 : Scenario :=
  { sector := some "tech", investment_period := some "short",
    target_price := some 10000, rationale := some "momentum" }

/-- A scenario in the `tech` sector without a target price. -/
def exScenario2 : Scenario :=
  { sector := some "tech", investment_period := some "short",
    target_price := none, rationale := none }

/-- A scenario in the `finance` sector with target price `0`. -/
def exScenario3 : Scenario :=
  { sector := some "finance", investment_period := some "long",
    target_price := some 0, rationale := none }

/-- Sample trade: profit rate `5`, sector `tech`, target price `10000`,
sell price `11000`. -/
def exT1 : Trade :=
  { id := 1, ticker := "005930", company_name := "A", buy_price := 10000,
    sell_price := 11000, buy_date := "2025-01-02", sell_date := "2025-01-10",
    holding_days := 8, profit_rate := 5, scenario := some exScenario1 }

/-- Sample trade: profit rate `-3`, sector `tech`, no target price. -/
def exT2 : Trade :=
  { id := 2, ticker := "000660", company_name := "B", buy_price := 20000,
    sell_price := 19400, buy_date := "2025-02-03", sell_date := "2025-02-07",
    holding_days := 4, profit_rate := -3, scenario := some exScenario2 }

/-- Sample trade: profit rate `10`, sector `finance`, target price `0`. -/
def exT3 : Trade :=
  { id := 3, ticker := "105560", company_name := "C", buy_price := 50000,
    sell_price := 55000, buy_date := "2025-03-04", sell_date := "2025-03-20",
    holding_days := 16, profit_rate := 10, scenario := some exScenario3 }

/-- Sample trade with no scenario at all. -/
def exT0 : Trade :=
  { id := 4, ticker := "035420", company_name := "D", buy_price := 1000,
    sell_price := 1010, buy_date := "2025-04-01", sell_date := "2025-04-02",
    holding_days := 1, profit_rate := 1, scenario := none }

/-- The worked example of the spec: profit rates `5` and `-3` in `tech`,
`10` in `finance`. -/
def exHistory : List Trade := [exT1, exT2, exT3]

/-- A summary snapshot used where the render model needs one. -/
def exSummary : Summary :=
  { trading := { total_trades := 3, win_rate := 2 / 3 * 100,
                 avg_profit_rate := 4, avg_holding_days := 28 / 3 } }

/-- The `tech` group stats of the spec's worked example. -/
def exStatsTech : GroupStats := { total := 2, count := 2, avgProfit := 1 }

/-- The `finance` group stats of the spec's worked example. -/
def exStatsFinance : GroupStats := { total := 10, count := 1, avgProfit := 10 }

/-! ## Helper lemmas -/

/-- Folding `bestStep` never decreases the running profit rate and ends at
least as high as every scanned trade. -/
lemma foldl_bestStep_spec (l : List Trade) :
    ∀ acc : Trade, acc.profit_rate ≤ (l.foldl bestStep acc).profit_rate ∧
      ∀ tr ∈ l, tr.profit_rate ≤ (l.foldl bestStep acc).profit_rate := by
  induction l with
  | nil => intro acc; simp
  | cons a l ih =>
    intro acc
    simp only [List.foldl_cons]
    obtain ⟨h1, h2⟩ := ih (bestStep acc a)
    have hacc : acc.profit_rate ≤ (bestStep acc a).profit_rate := by
      unfold bestStep; split_ifs with h
      · exact le_of_lt h
      · exact le_refl _
    have ha : a.profit_rate ≤ (bestStep acc a).profit_rate := by
      unfold bestStep; split_ifs with h
      · exact le_refl _
      · exact not_lt.mp h
    refine ⟨le_trans hacc h1, ?_⟩
    intro tr htr
    rcases List.mem_cons.mp htr with rfl | hmem
    · exact le_trans ha h1
    · exact h2 tr hmem

/-- Folding `worstStep` never increases the running profit rate and ends at
most as low as every scanned trade. -/
lemma foldl_worstStep_spec (l : List Trade) :
    ∀ acc : Trade, (l.foldl worstStep acc).profit_rate ≤ acc.profit_rate ∧
      ∀ tr ∈ l, (l.foldl worstStep acc).profit_rate ≤ tr.profit_rate := by
  induction l with
  | nil => intro acc; simp
  | cons a l ih =>
    intro acc
    simp only [List.foldl_cons]
    obtain ⟨h1, h2⟩ := ih (worstStep acc a)
    have hacc : (worstStep acc a).profit_rate ≤ acc.profit_rate := by
      unfold worstStep; split_ifs with h
      · exact le_of_lt h
      · exact le_refl _
    have ha : (worstStep acc a).profit_rate ≤ a.profit_rate := by
      unfold worstStep; split_ifs with h
      · exact le_refl _
      · exact not_lt.mp h
    refine ⟨le_trans h1 hacc, ?_⟩
    intro tr htr
    rcases List.mem_cons.mp htr with rfl | hmem
    · exact le_trans h1 ha
    · exact h2 tr hmem

/-- A key is absent from an association-list lookup exactly when it is not
among the entry keys. -/
lemma lookup_eq_none_iff (acc : List (String × GroupStats)) (key : String) :
    acc.lookup key = none ↔ key ∉ acc.map Prod.fst := by
  induction acc with
  | nil => simp
  | cons p l ih =>
    obtain ⟨k, v⟩ := p
    by_cases hk : key = k
    · subst hk
      simp [List.lookup_cons]
    · simp only [List.lookup_cons, beq_false_of_ne hk, List.map_cons,
        List.mem_cons, not_or, ih]
      exact ⟨fun h2 => ⟨hk, h2⟩, fun h2 => h2.2⟩

/-- Lookup distributes over append when the key misses the first part. -/
lemma lookup_append_of_none (l₁ l₂ : List (String × GroupStats)) (key : String)
    (h : l₁.lookup key = none) : (l₁ ++ l₂).lookup key = l₂.lookup key := by
  induction l₁ with
  | nil => rfl
  | cons p l ih =>
    obtain ⟨k, v⟩ := p
    by_cases hk : key = k
    · subst hk
      simp [List.lookup_cons] at h
    · simp only [List.lookup_cons, beq_false_of_ne hk] at h
      simp only [List.cons_append, List.lookup_cons, beq_false_of_ne hk]
      exact ih h

/-- Lookup stays in the left part when the key hits there. -/
lemma lookup_append_of_some (l₁ l₂ : List (String × GroupStats)) (key : String)
    (v : GroupStats) (h : l₁.lookup key = some v) :
    (l₁ ++ l₂).lookup key = some v := by
  induction l₁ with
  | nil => simp [List.lookup] at h
  | cons p l ih =>
    obtain ⟨k, w⟩ := p
    by_cases hk : key = k
    · subst hk
      simp only [List.lookup_cons, beq_self_eq_true] at h
      simp only [List.cons_append, List.lookup_cons, beq_self_eq_true]
      exact h
    · simp only [List.lookup_cons, beq_false_of_ne hk] at h
      simp only [List.cons_append, List.lookup_cons, beq_false_of_ne hk]
      exact ih h

/-- With nodup keys, membership of a pair determines the lookup result. -/
lemma lookup_of_mem_of_nodup (acc : List (String × GroupStats)) (key : String)
    (s : GroupStats) (hnd : (acc.map Prod.fst).Nodup) (hmem : (key, s) ∈ acc) :
    acc.lookup key = some s := by
  induction acc with
  | nil => cases hmem
  | cons p l ih =>
    obtain ⟨k, v⟩ := p
    simp only [List.map_cons, List.nodup_cons] at hnd
    rcases List.mem_cons.mp hmem with heq | hm
    · injection heq with h1 h2
      subst h1
      subst h2
      simp [List.lookup_cons]
    · by_cases hk : key = k
      · subst hk
        exact absurd (List.mem_map_of_mem Prod.fst hm) hnd.1
      · simp only [List.lookup_cons, beq_false_of_ne hk]
        exact ih hnd.2 hm

/-- `bumpKey` does not change the entry keys. -/
lemma map_fst_bumpKey (acc : List (String × GroupStats)) (key : String) (pr : ℚ) :
    (bumpKey acc key pr).map Prod.fst = acc.map Prod.fst := by
  induction acc with
  | nil => rfl
  | cons p l ih =>
    obtain ⟨k, v⟩ := p
    have ih' : (bumpKey l key pr).map Prod.fst = l.map Prod.fst := ih
    by_cases hk : k = key <;>
      simp only [bumpKey, List.map_cons, if_pos, if_neg, hk] <;>
      simp only [bumpKey] at ih' <;> simp [ih', hk]

/-- `bumpKey` is the identity when the key is absent. -/
lemma bumpKey_of_not_mem (acc : List (String × GroupStats)) (key : String)
    (pr : ℚ) (h : key ∉ acc.map Prod.fst) : bumpKey acc key pr = acc := by
  induction acc with
  | nil => rfl
  | cons p l ih =>
    obtain ⟨k, v⟩ := p
    simp only [List.map_cons, List.mem_cons, not_or] at h
    have hk : ¬k = key := fun he => h.1 he.symm
    have ih' := ih h.2
    simp only [bumpKey] at ih' ⊢
    simp [hk, ih']

/-- Lookup of the bumped key returns the updated stats. -/
lemma lookup_bumpKey_self (acc : List (String × GroupStats)) (key : String)
    (pr : ℚ) :
    (bumpKey acc key pr).lookup key =
      (acc.lookup key).map fun s =>
        { total := s.total + pr, count := s.count + 1,
          avgProfit := (s.total + pr) / (s.count + 1) } := by
  induction acc with
  | nil => rfl
  | cons p l ih =>
    obtain ⟨k, v⟩ := p
    have ih' : (bumpKey l key pr).lookup key = _ := ih
    simp only [bumpKey] at ih'
    by_cases hk : k = key
    · subst hk
      simp [bumpKey, List.lookup_cons]
    · have hk' : ¬key = k := fun he => hk he.symm
      simp only [bumpKey, List.map_cons, if_neg hk, List.lookup_cons,
        beq_false_of_ne hk']
      exact ih'

/-- Lookup of any other key is unchanged by `bumpKey`. -/
lemma lookup_bumpKey_ne (acc : List (String × GroupStats)) (key key' : String)
    (pr : ℚ) (h : key' ≠ key) :
    (bumpKey acc key pr).lookup key' = acc.lookup key' := by
  induction acc with
  | nil => rfl
  | cons p l ih =>
    obtain ⟨k, v⟩ := p
    have ih' : (bumpKey l key pr).lookup key' = l.lookup key' := ih
    simp only [bumpKey] at ih'
    by_cases hk : k = key
    · subst hk
      simp [bumpKey, List.lookup_cons, beq_false_of_ne h, ih']
    · by_cases hk' : key' = k
      · subst hk'
        simp [bumpKey, if_neg hk, List.lookup_cons]
      · simp only [bumpKey, List.map_cons, if_neg hk, List.lookup_cons,
          beq_false_of_ne hk']
        exact ih'

/-- After `ensureKey`, the key is present, holding its old stats or the
zero entry. -/
lemma lookup_ensureKey_self (acc : List (String × GroupStats)) (key : String) :
    (ensureKey acc key).lookup key =
      some ((acc.lookup key).getD { total := 0, count := 0, avgProfit := 0 }) := by
  unfold ensureKey
  cases hl : acc.lookup key with
  | some s => simp [hl]
  | none =>
    simp only [hl, Option.isSome_none, Bool.false_eq_true, if_false,
      Option.getD_none]
    rw [lookup_append_of_none _ _ _ hl]
    simp [List.lookup_cons]

/-- Lookup of any other key is unchanged by `ensureKey`. -/
lemma lookup_ensureKey_ne (acc : List (String × GroupStats)) (key key' : String)
    (h : key' ≠ key) : (ensureKey acc key).lookup key' = acc.lookup key' := by
  unfold ensureKey
  split
  · rfl
  · cases hl : acc.lookup key' with
    | some s => exact lookup_append_of_some _ _ _ _ hl
    | none =>
      rw [lookup_append_of_none _ _ _ hl]
      simp [List.lookup_cons, beq_false_of_ne h, hl]

/-- `ensureKey` preserves nodup keys. -/
lemma nodup_keys_ensureKey (acc : List (String × GroupStats)) (key : String)
    (h : (acc.map Prod.fst).Nodup) :
    ((ensureKey acc key).map Prod.fst).Nodup := by
  unfold ensureKey
  split
  · exact h
  · next hnone =>
    have hkey : key ∉ acc.map Prod.fst := by
      rw [← lookup_eq_none_iff]
      exact Option.not_isSome_iff_eq_none.mp hnone
    simp [List.nodup_append, h, hkey]

/-- One grouping step preserves nodup keys. -/
lemma nodup_keys_groupStep (labelOf : Trade → String)
    (acc : List (String × GroupStats)) (trade : Trade)
    (h : (acc.map Prod.fst).Nodup) :
    ((groupStep labelOf acc trade).map Prod.fst).Nodup := by
  unfold groupStep
  rw [map_fst_bumpKey]
  exact nodup_keys_ensureKey acc _ h

/-- One grouping step adds the trade's profit rate to its own group's
count and total. -/
lemma lookCount_lookTotal_groupStep_self (labelOf : Trade → String)
    (acc : List (String × GroupStats)) (trade : Trade) :
    lookCount (groupStep labelOf acc trade) (labelOf trade) =
      lookCount acc (labelOf trade) + 1 ∧
    lookTotal (groupStep labelOf acc trade) (labelOf trade) =
      lookTotal acc (labelOf trade) + trade.profit_rate := by
  unfold groupStep lookCount lookTotal
  rw [lookup_bumpKey_self, lookup_ensureKey_self]
  cases hl : acc.lookup (labelOf trade) <;> simp [hl]

/-- One grouping step leaves every other group's count and total alone. -/
lemma lookCount_lookTotal_groupStep_ne (labelOf : Trade → String)
    (acc : List (String × GroupStats)) (trade : Trade) (key : String)
    (h : key ≠ labelOf trade) :
    lookCount (groupStep labelOf acc trade) key = lookCount acc key ∧
    lookTotal (groupStep labelOf acc trade) key = lookTotal acc key := by
  unfold groupStep lookCount lookTotal
  rw [lookup_bumpKey_ne _ _ _ _ h, lookup_ensureKey_ne _ _ _ h]
  exact ⟨rfl, rfl⟩

/-- One grouping step keeps every reachable entry's running average equal
to its total over its count, with a positive count. -/
lemma avgInv_groupStep (labelOf : Trade → String)
    (acc : List (String × GroupStats)) (trade : Trade)
    (h : ∀ key s, acc.lookup key = some s →
      s.avgProfit = s.total / s.count ∧ s.count ≠ 0) :
    ∀ key s, (groupStep labelOf acc trade).lookup key = some s →
      s.avgProfit = s.total / s.count ∧ s.count ≠ 0 := by
  intro key s hs
  by_cases hk : key = labelOf trade
  · subst hk
    unfold groupStep at hs
    rw [lookup_bumpKey_self, lookup_ensureKey_self] at hs
    simp only [Option.map_some'] at hs
    cases hl : acc.lookup (labelOf trade) with
    | none =>
      rw [hl] at hs
      simp only [Option.getD_none] at hs
      obtain rfl := Option.some.inj hs
      norm_num
    | some s0 =>
      rw [hl] at hs
      simp only [Option.getD_some] at hs
      obtain rfl := Option.some.inj hs
      refine ⟨?_, by simp⟩
      push_cast
      ring_nf
  · unfold groupStep at hs
    rw [lookup_bumpKey_ne _ _ _ _ hk, lookup_ensureKey_ne _ _ _ hk] at hs
    exact h key s hs

/-- `sumCounts` distributes over append. -/
lemma sumCounts_append (l₁ l₂ : List (String × GroupStats)) :
    sumCounts (l₁ ++ l₂) = sumCounts l₁ + sumCounts l₂ := by
  simp [sumCounts]

/-- `ensureKey` does not change the total count (the new entry counts 0). -/
lemma sumCounts_ensureKey (acc : List (String × GroupStats)) (key : String) :
    sumCounts (ensureKey acc key) = sumCounts acc := by
  unfold ensureKey
  split
  · rfl
  · rw [sumCounts_append]
    simp [sumCounts]

/-- Bumping a present key under nodup keys adds exactly one to the total
count. -/
lemma sumCounts_bumpKey (acc : List (String × GroupStats)) (key : String)
    (pr : ℚ) (hmem : key ∈ acc.map Prod.fst)
    (hnd : (acc.map Prod.fst).Nodup) :
    sumCounts (bumpKey acc key pr) = sumCounts acc + 1 := by
  induction acc with
  | nil => cases hmem
  | cons p l ih =>
    obtain ⟨k, v⟩ := p
    simp only [List.map_cons, List.nodup_cons, List.mem_cons] at hmem hnd
    by_cases hk : k = key
    · subst hk
      have hl : bumpKey l k pr = l := bumpKey_of_not_mem l k pr hnd.1
      simp only [bumpKey] at hl ⊢
      simp [sumCounts, hl]
      omega
    · have hmem' : key ∈ l.map Prod.fst := by
        rcases hmem with heq | hm
        · exact absurd heq.symm hk
        · exact hm
      have ih' := ih hmem' hnd.2
      simp only [bumpKey, sumCounts] at ih' ⊢
      simp [hk] at ih' ⊢
      omega

/-- One grouping step adds exactly one to the total count. -/
lemma sumCounts_groupStep (labelOf : Trade → String)
    (acc : List (String × GroupStats)) (trade : Trade)
    (hnd : (acc.map Prod.fst).Nodup) :
    sumCounts (groupStep labelOf acc trade) = sumCounts acc + 1 := by
  unfold groupStep
  have hsome := lookup_ensureKey_self acc (labelOf trade)
  have hmem : labelOf trade ∈ (ensureKey acc (labelOf trade)).map Prod.fst := by
    by_contra hno
    rw [← lookup_eq_none_iff] at hno
    rw [hno] at hsome
    cases hsome
  rw [sumCounts_bumpKey _ _ _ hmem (nodup_keys_ensureKey acc _ hnd),
    sumCounts_ensureKey]

/-- The grouping fold, started from any well-formed accumulator, adds each
group's member count and profit-rate sum to the accumulator's, keeps the
running average equal to total over count, and adds the list length to the
total count. -/
lemma groupPerformance_foldl_spec (labelOf : Trade → String)
    (history : List Trade) :
    ∀ acc : List (String × GroupStats),
      (acc.map Prod.fst).Nodup →
      (∀ key s, acc.lookup key = some s →
        s.avgProfit = s.total / s.count ∧ s.count ≠ 0) →
      (((history.foldl (groupStep labelOf) acc).map Prod.fst).Nodup ∧
       (∀ key s, (history.foldl (groupStep labelOf) acc).lookup key = some s →
          s.avgProfit = s.total / s.count ∧ s.count ≠ 0) ∧
       (∀ key, lookCount (history.foldl (groupStep labelOf) acc) key =
          lookCount acc key + groupCount labelOf key history) ∧
       (∀ key, lookTotal (history.foldl (groupStep labelOf) acc) key =
          lookTotal acc key + groupSum labelOf key history) ∧
       sumCounts (history.foldl (groupStep labelOf) acc) =
          sumCounts acc + history.length) := by
  induction history with
  | nil =>
    intro acc h1 h2
    exact ⟨h1, h2, fun key => by simp [groupCount, groupMembers],
      fun key => by simp [groupSum, groupMembers], by simp⟩
  | cons a l ih =>
    intro acc h1 h2
    simp only [List.foldl_cons]
    obtain ⟨g1, g2, g3, g4, g5⟩ :=
      ih (groupStep labelOf acc a) (nodup_keys_groupStep _ _ _ h1)
        (avgInv_groupStep _ _ _ h2)
    refine ⟨g1, g2, ?_, ?_, ?_⟩
    · intro key
      rw [g3 key]
      by_cases hk : key = labelOf a
      · subst hk
        rw [(lookCount_lookTotal_groupStep_self labelOf acc a).1]
        have hgc : groupCount labelOf (labelOf a) (a :: l) =
            groupCount labelOf (labelOf a) l + 1 := by
          simp [groupCount, groupMembers, List.filter_cons]
        omega
      · rw [(lookCount_lookTotal_groupStep_ne labelOf acc a key hk).1]
        have hgc : groupCount labelOf key (a :: l) = groupCount labelOf key l := by
          have : ¬labelOf a = key := fun he => hk he.symm
          simp [groupCount, groupMembers, List.filter_cons, this]
        omega
    · intro key
      rw [g4 key]
      by_cases hk : key = labelOf a
      · subst hk
        rw [(lookCount_lookTotal_groupStep_self labelOf acc a).2]
        have hgs : groupSum labelOf (labelOf a) (a :: l) =
            a.profit_rate + groupSum labelOf (labelOf a) l := by
          simp [groupSum, groupMembers, List.filter_cons]
        rw [hgs]
        ring
      · rw [(lookCount_lookTotal_groupStep_ne labelOf acc a key hk).2]
        have hgs : groupSum labelOf key (a :: l) = groupSum labelOf key l := by
          have : ¬labelOf a = key := fun he => hk he.symm
          simp [groupSum, groupMembers, List.filter_cons, this]
        rw [hgs]
    · rw [g5, sumCounts_groupStep _ _ _ h1]
      simp only [List.length_cons]
      omega

/-- The grouping reduce computes, for every group it produces, exactly the
member count, profit-rate sum and arithmetic mean of the trades carrying
that label, and its counts add up to the length of the input. -/
lemma groupPerformance_spec (labelOf : Trade → String) (history : List Trade) :
    (∀ key s, (key, s) ∈ groupPerformance labelOf history →
        s.count = groupCount labelOf key history ∧
        s.total = groupSum labelOf key history ∧
        s.avgProfit =
          groupSum labelOf key history / groupCount labelOf key history) ∧
    sumCounts (groupPerformance labelOf history) = history.length := by
  obtain ⟨g1, g2, g3, g4, g5⟩ :=
    groupPerformance_foldl_spec labelOf history [] (by simp)
      (by intro key s h; cases h)
  constructor
  · intro key s hmem
    have hl : (groupPerformance labelOf history).lookup key = some s :=
      lookup_of_mem_of_nodup _ _ _ g1 hmem
    unfold groupPerformance at hl
    have hcount : s.count = groupCount labelOf key history := by
      have h3 := g3 key
      unfold lookCount at h3
      rw [hl] at h3
      simpa using h3
    have htotal : s.total = groupSum labelOf key history := by
      have h4 := g4 key
      unfold lookTotal at h4
      rw [hl] at h4
      simpa using h4
    obtain ⟨havg, hc0⟩ := g2 key s hl
    exact ⟨hcount, htotal, by rw [havg, hcount, htotal]⟩
  · simpa [sumCounts] using g5

/-- Evaluation of the sector aggregation on the spec's worked example:
`tech` averages `1` over two trades, `finance` averages `10` over one. -/
lemma sectorPerformance_exHistory_eval :
    sectorPerformance Language.ko exHistory =
      [("tech", exStatsTech), ("finance", exStatsFinance)] := by
  have l1 : sectorLabel Language.ko exT1 = "tech" := by decide
  have l2 : sectorLabel Language.ko exT2 = "tech" := by decide
  have l3 : sectorLabel Language.ko exT3 = "finance" := by decide
  have p1 : exT1.profit_rate = 5 := rfl
  have p2 : exT2.profit_rate = -3 := rfl
  have p3 : exT3.profit_rate = 10 := rfl
  simp [sectorPerformance, groupPerformance, exHistory, groupStep, ensureKey, bumpKey,
    l1, l2, l3, p1, p2, p3, exStatsTech, exStatsFinance, List.lookup_cons, Prod.ext_iff]
  norm_num

/-- Evaluation of the target-achievement cell on the sample trade `exT1`
(`toFixed(0)` of `11000 / 10000 × 100` is `110`). -/
lemma targetAchievementText_exT1_eval : targetAchievementText exT1 = "110%" := by
  have h110 : round ((11000 : ℚ) / 10000 * 100) = 110 := by norm_num [round_eq]
  show toString (round ((11000 : ℚ) / 10000 * 100)) ++ "%" = "110%"
  rw [h110]
  decide

/-! ## Claims -/

/-- C1: for every non-empty trade list, the best trade computed by
`TradingHistoryPage` has profit rate at least every trade's profit rate,
and the worst trade has profit rate at most every trade's profit rate. -/
theorem bestWorst_extremal (history : List Trade) (_hne : history ≠ [])
    (tr : Trade) (htr : tr ∈ history) :
    tr.profit_rate ≤ (bestTrade history).profit_rate ∧
    (worstTrade history).profit_rate ≤ tr.profit_rate :=
  ⟨(foldl_bestStep_spec history _).2 tr htr,
   (foldl_worstStep_spec history _).2 tr htr⟩

/-- Witness for C1 at the spec's worked example. -/
theorem bestWorst_extremal_witness :
    exHistory ≠ [] ∧ exT2 ∈ exHistory ∧
    (exT2.profit_rate ≤ (bestTrade exHistory).profit_rate ∧
     (worstTrade exHistory).profit_rate ≤ exT2.profit_rate) :=
  ⟨by decide, by decide, bestWorst_extremal exHistory (by decide) exT2 (by decide)⟩

/-- C3: the top-3 sector list is sorted in descending order of average
profit rate and contains at most 3 entries, for every trade list (in
particular also when more than 3 distinct sector labels occur); the order
of ties is whatever the stable sort produces. -/
theorem sortedSectors_desc_top3 (lang : Language) (history : List Trade) :
    (sortedSectors lang history).length ≤ 3 ∧
    (sortedSectors lang history).Sorted byAvgProfitDesc := by
  constructor
  · exact List.length_take_le 3
      ((sectorPerformance lang history).insertionSort byAvgProfitDesc)
  · exact List.Pairwise.sublist (List.take_sublist 3 _)
      (List.sorted_insertionSort byAvgProfitDesc (sectorPerformance lang history))

/-- C4: for the empty trade list the best and worst profit rates default to
`0`, the empty-state placeholder message renders, and the derived-aggregate
cards and the per-trade listing do not. -/
theorem emptyList_defaults_and_empty_state (lang : Language) (summary : Summary) :
    (bestTrade []).profit_rate = 0 ∧ (worstTrade []).profit_rate = 0 ∧
    (renderTradingHistoryPage lang [] summary).showsEmptyState = true ∧
    (renderTradingHistoryPage lang [] summary).emptyStateMessage =
      some "아직 거래 내역이 없습니다." ∧
    (renderTradingHistoryPage lang [] summary).showsBestWorstCards = false ∧
    (renderTradingHistoryPage lang [] summary).showsSectorPeriodCards = false ∧
    (renderTradingHistoryPage lang [] summary).tradeEntries = [] :=
  ⟨rfl, rfl, rfl, rfl, rfl, rfl, rfl⟩

/-- C6: the translation function returns the key itself for every key
absent from the active locale's dictionary (and, being total, never
throws). -/
theorem t_missing_key_returns_key (lang : Language) (key : String)
    (h : (translations lang).lookup key = none) : t lang key = key := by
  simp [t, h]

/-- Witness for C6 at the literal key of the claim. -/
theorem t_missing_key_witness :
    (translations Language.ko).lookup "nonexistent.key" = none ∧
    t Language.ko "nonexistent.key" = "nonexistent.key" :=
  ⟨by decide, t_missing_key_returns_key Language.ko "nonexistent.key" (by decide)⟩

/-- C7: setting the language to `"en"` and then `"ko"` leaves `"ko"` in
storage, a fresh provider started on that storage reports `"ko"`, and a
fresh provider started on any supported persisted locale reports that
locale without further action. -/
theorem setLanguage_persist_roundtrip (st : ProviderState) :
    (setLanguage (setLanguage st Language.en) Language.ko).storage = some "ko" ∧
    (initProvider (setLanguage (setLanguage st Language.en) Language.ko).storage).language =
      Language.ko ∧
    ∀ lang : Language, (initProvider (some lang.toStr)).language = lang := by
  refine ⟨rfl, rfl, fun lang => ?_⟩
  cases lang <;> rfl

/-- C9: reading the language context outside a `LanguageProvider` throws
immediately (the hook returns the thrown error, never a default value). -/
theorem useLanguage_outside_provider_throws :
    useLanguage none =
      Except.error "useLanguage must be used within a LanguageProvider" := rfl

/-- C8: a trade whose target price is present (and nonzero, which is what
the page's truthiness test checks) renders `sell_price / target_price × 100`
rounded to an integer with a `%` suffix; a trade with no target price
renders `-`. -/
theorem targetAchievement_render (trade : Trade) :
    (∀ sc tp, trade.scenario = some sc → sc.target_price = some tp → tp ≠ 0 →
        targetAchievementText trade =
          toString (round (trade.sell_price / tp * 100)) ++ "%") ∧
    (trade.scenario.bind Scenario.target_price = none →
        targetAchievementText trade = "-") := by
  constructor
  · intro sc tp hsc htp htp0
    simp [targetAchievementText, hsc, htp, htp0]
  · intro h
    cases hsc : trade.scenario with
    | none => simp [targetAchievementText, hsc]
    | some sc =>
      cases htp : sc.target_price with
      | none => simp [targetAchievementText, hsc, htp]
      | some tp => simp [hsc, htp] at h

/-- Witness for C8: `sell_price = 11000` with `target_price = 10000`
renders `110%`, and a trade without a target price renders `-`. -/
theorem targetAchievement_witness :
    exT1.scenario = some exScenario1 ∧ exScenario1.target_price = some 10000 ∧
    (10000 : ℚ) ≠ 0 ∧
    targetAchievementText exT1 =
      toString (round (exT1.sell_price / (10000 : ℚ) * 100)) ++ "%" ∧
    targetAchievementText exT1 = "110%" ∧
    exT2.scenario.bind Scenario.target_price = none ∧
    targetAchievementText exT2 = "-" :=
  ⟨rfl, rfl, by norm_num,
   (targetAchievement_render exT1).1 exScenario1 10000 rfl rfl (by norm_num),
   targetAchievementText_exT1_eval, rfl,
   (targetAchievement_render exT2).2 rfl⟩

/-- C10: a present target price of `0` is falsy, so the page renders the
`-` placeholder for it, and the division is only ever evaluated with a
nonzero divisor. -/
theorem targetPrice_zero_treated_absent (trade : Trade) :
    (∀ sc, trade.scenario = some sc → sc.target_price = some 0 →
        targetAchievementText trade = "-") ∧
    (targetAchievementText trade ≠ "-" →
        ∃ sc tp, trade.scenario = some sc ∧ sc.target_price = some tp ∧ tp ≠ 0) := by
  constructor
  · intro sc hsc htp
    simp [targetAchievementText, hsc, htp]
  · intro h
    cases hsc : trade.scenario with
    | none => simp [targetAchievementText, hsc] at h
    | some sc =>
      cases htp : sc.target_price with
      | none => simp [targetAchievementText, hsc, htp] at h
      | some tp =>
        by_cases h0 : tp = 0
        · simp [targetAchievementText, hsc, htp, h0] at h
        · exact ⟨sc, tp, rfl, htp, h0⟩

/-- C2: every group reported by the sector aggregation and by the period
aggregation carries the member count, profit-rate sum and arithmetic mean
of exactly the trades whose fallback-resolved label matches the group, and
the group counts sum to the number of input trades. -/
theorem groupAverages_and_counts (lang : Language) (history : List Trade) :
    (∀ key s, (key, s) ∈ sectorPerformance lang history →
        s.count = groupCount (sectorLabel lang) key history ∧
        s.total = groupSum (sectorLabel lang) key history ∧
        s.avgProfit =
          groupSum (sectorLabel lang) key history /
            groupCount (sectorLabel lang) key history) ∧
    sumCounts (sectorPerformance lang history) = history.length ∧
    (∀ key s, (key, s) ∈ periodPerformance lang history →
        s.count = groupCount (periodLabel lang) key history ∧
        s.total = groupSum (periodLabel lang) key history ∧
        s.avgProfit =
          groupSum (periodLabel lang) key history /
            groupCount (periodLabel lang) key history) ∧
    sumCounts (periodPerformance lang history) = history.length :=
  ⟨(groupPerformance_spec (sectorLabel lang) history).1,
   (groupPerformance_spec (sectorLabel lang) history).2,
   (groupPerformance_spec (periodLabel lang) history).1,
   (groupPerformance_spec (periodLabel lang) history).2⟩

/-- Witness for C2 at the spec's worked example (`tech` averages `1`). -/
theorem groupAverages_witness :
    ("tech", exStatsTech) ∈ sectorPerformance Language.ko exHistory ∧
    (exStatsTech.count = groupCount (sectorLabel Language.ko) "tech" exHistory ∧
     exStatsTech.total = groupSum (sectorLabel Language.ko) "tech" exHistory ∧
     exStatsTech.avgProfit =
       groupSum (sectorLabel Language.ko) "tech" exHistory /
         groupCount (sectorLabel Language.ko) "tech" exHistory) :=
  ⟨by rw [sectorPerformance_exHistory_eval]; exact List.mem_cons_self _ _,
   (groupAverages_and_counts Language.ko exHistory).1 "tech" exStatsTech
     (by rw [sectorPerformance_exHistory_eval]; exact List.mem_cons_self _ _)⟩

/-- Counterexample to C5 as written: a trade with no scenario is grouped
under the literal key `"common.other"` (the translation lookup misses, so
`t` echoes the key), not under `"other"`; likewise the period fallback is
`"common.unclassified"`, not `"unclassified"`. -/
theorem fallbackLabel_counterexample :
    exT0.scenario = none ∧
    (sectorPerformance Language.ko [exT0]).map Prod.fst = ["common.other"] ∧
    (sectorPerformance Language.ko [exT0]).lookup "other" = none ∧
    (periodPerformance Language.ko [exT0]).map Prod.fst = ["common.unclassified"] ∧
    (periodPerformance Language.ko [exT0]).lookup "unclassified" = none := by
  refine ⟨rfl, ?_, ?_, ?_, ?_⟩ <;> decide

/-- C5 (amended): every trade whose scenario is absent or has a missing or
empty sector is grouped under the fallback label `t lang "common.other"`,
which — the key being absent from both dictionaries — is the literal string
`"common.other"`; the period fallback is `t lang "common.unclassified"`,
the literal string `"common.unclassified"`. -/
theorem fallbackLabel_amended (lang : Language) (trade : Trade) :
    (trade.scenario.bind Scenario.sector = none ∨
        trade.scenario.bind Scenario.sector = some "" →
      sectorLabel lang trade = t lang "common.other") ∧
    t lang "common.other" = "common.other" ∧
    (trade.scenario.bind Scenario.investment_period = none ∨
        trade.scenario.bind Scenario.investment_period = some "" →
      periodLabel lang trade = t lang "common.unclassified") ∧
    t lang "common.unclassified" = "common.unclassified" := by
  refine ⟨?_, by cases lang <;> decide, ?_, by cases lang <;> decide⟩
  · intro h
    cases hsc : trade.scenario with
    | none => simp [sectorLabel, hsc]
    | some sc =>
      rw [hsc] at h
      change sc.sector = none ∨ sc.sector = some "" at h
      rcases h with h | h <;> simp [sectorLabel, hsc, h]
  · intro h
    cases hsc : trade.scenario with
    | none => simp [periodLabel, hsc]
    | some sc =>
      rw [hsc] at h
      change sc.investment_period = none ∨ sc.investment_period = some "" at h
      rcases h with h | h <;> simp [periodLabel, hsc, h]

/-- Witness for the amended C5 at the scenario-less sample trade. -/
theorem fallbackLabel_witness :
    (exT0.scenario.bind Scenario.sector = none ∨
        exT0.scenario.bind Scenario.sector = some "") ∧
    sectorLabel Language.ko exT0 = t Language.ko "common.other" ∧
    (exT0.scenario.bind Scenario.investment_period = none ∨
        exT0.scenario.bind Scenario.investment_period = some "") ∧
    periodLabel Language.ko exT0 = t Language.ko "common.unclassified" :=
  ⟨Or.inl rfl, (fallbackLabel_amended Language.ko exT0).1 (Or.inl rfl),
   Or.inl rfl, (fallbackLabel_amended Language.ko exT0).2.2.1 (Or.inl rfl)⟩

/-- Witness for C10 at a trade whose scenario has target price `0`. -/
theorem targetPrice_zero_witness :
    exT3.scenario = some exScenario3 ∧ exScenario3.target_price = some 0 ∧
    targetAchievementText exT3 = "-" ∧
    (∃ sc tp, exT1.scenario = some sc ∧ sc.target_price = some tp ∧ tp ≠ 0) :=
  ⟨rfl, rfl, (targetPrice_zero_treated_absent exT3).1 exScenario3 rfl rfl,
   (targetPrice_zero_treated_absent exT1).2
     (by rw [targetAchievementText_exT1_eval]; decide)⟩

end PrismInsight
